import Mathlib

/-!
Shallow embedding of the FleetNests reservation engine (src/models.py,
src/app.py, src/club_resolver.py, src/master_db.py) and proofs about it.

Modelling conventions:
* Timestamps are integers counted in minutes (the reservation grid is
  30-minute aligned, so minute granularity is exact for every comparison the
  source performs); calendar dates are integers counted in days, with
  `dateOf t = t.fdiv 1440` playing the role of Python `datetime.date()`.
* SQL tables become Lean lists of structures; a query becomes a
  `find?`/`filter`/`countP` over the list; an `UPDATE` becomes a `map`.
* Python `None`-able columns and arguments become `Option`; Python
  truthiness of an optional vehicle id (`if vehicle_id:`) is `vtruthy`
  (both `None` and `0` are falsy in the source).
* Fallible operations return `Option`/pairs with a success flag, mirroring
  the source's `return None` / `return False` conventions.
-/

namespace FleetNests

/-- Reservation status strings used by models.py: `active`, `pending_approval`,
`cancelled`. -/
inductive RStatus where
  | active
  | pending_approval
  | cancelled
deriving DecidableEq, Repr

/-- A row of the `reservations` table (the columns the engine reads/writes). -/
structure Reservation where
  id : Nat
  userId : Nat
  vehicleId : Option Nat
  date : Int
  startTime : Int
  endTime : Int
  notes : Option String
  status : RStatus
  cancelledAt : Option Int
deriving DecidableEq, Repr

/-- A row of the `blackout_dates` table; `vehicleId = none` means club-wide. -/
structure Blackout where
  id : Nat
  vehicleId : Option Nat
  startTime : Int
  endTime : Int
  reason : String
deriving DecidableEq, Repr

/-- A row of the `users` table (the columns the engine reads). The limit
columns are nullable; `get_user_limits` coerces NULL and 0 to the default 3
via Python `or`. -/
structure UserRow where
  id : Nat
  displayName : String
  maxConsecutiveDays : Option Nat
  maxPending : Option Nat
deriving DecidableEq, Repr

/-- A row of the `waitlist` table. -/
structure WaitlistEntry where
  id : Nat
  userId : Nat
  desiredDate : Int
  notified : Bool
deriving DecidableEq, Repr

/-- A row of the `vehicles` table (the columns the booking route reads). -/
structure Vehicle where
  id : Nat
  name : String
  isActive : Bool
deriving DecidableEq, Repr

/-- One club's database state, as seen by the reservation engine. Lists keep
insertion order (SQL default order / ORDER BY created_at for the waitlist);
`nextId` models the serial primary key of `reservations`. -/
structure ClubState where
  users : List UserRow
  reservations : List Reservation
  blackouts : List Blackout
  waitlist : List WaitlistEntry
  vehicles : List Vehicle
  nextId : Nat
deriving DecidableEq, Repr

/-- Python truthiness of the `vehicle_id` argument (`if vehicle_id:`):
`None` and `0` are falsy. -/
def vtruthy : Option Nat → Bool
  | none => false
  | some v => decide (v ≠ 0)

/-- Status is counted by the overlap/limit queries
(`status IN ('active','pending_approval')`). -/
def countedStatus (s : RStatus) : Bool :=
  s = RStatus.active ∨ s = RStatus.pending_approval

/-- Half-open interval overlap predicate used verbatim by every conflict
query in the source: `start_time < %s AND end_time > %s` with the proposed
`(end, start)` bound, i.e. `existing.start < end AND existing.end > start`. -/
def overlaps_window (rowStart rowEnd s e : Int) : Bool :=
  rowStart < e ∧ s < rowEnd

/-- models.get_user_by_id: `SELECT * FROM users WHERE id = %s`. -/
def get_user_by_id (st : ClubState) (userId : Nat) : Option UserRow :=
  st.users.find? (fun u => u.id = userId)

/-- Python `row["column"] or 3`: NULL and 0 both coerce to the default 3. -/
def limitOr3 : Option Nat → Nat
  | none => 3
  | some n => if n = 0 then 3 else n

/-- models.get_user_limits: per-member limits with the `or 3` coercion.
A missing user row would raise in Python; the claims never exercise that
path, and we return the defaults there. -/
def get_user_limits (st : ClubState) (userId : Nat) : Nat × Nat :=
  match st.users.find? (fun u => u.id = userId) with
  | some u => (limitOr3 u.maxConsecutiveDays, limitOr3 u.maxPending)
  | none => (3, 3)

/-- models.get_pending_count: count of the member's future reservations with
status in (active, pending_approval), `start_time >= now`. -/
def get_pending_count (st : ClubState) (now : Int) (userId : Nat) : Nat :=
  st.reservations.countP
    (fun r => r.userId = userId ∧ countedStatus r.status = true ∧ now ≤ r.startTime)

/-- models.get_user_future_reservations: SELECT DISTINCT date ... — modelled
as the finite set of dates of the member's future counted reservations. -/
def get_user_future_dates (st : ClubState) (now : Int) (userId : Nat) : Finset Int :=
  ((st.reservations.filter
    (fun r => r.userId = userId ∧ countedStatus r.status = true ∧ now ≤ r.startTime)).map
      (fun r => r.date)).toFinset

/-- The loop body of models._has_consecutive_violation: walk the sorted date
list keeping the current run length, returning true as soon as the run
exceeds `maxRun` (Python: `run += 1; if run > max_run: return True`). -/
def scanRun (prev : Int) (run : Nat) (maxRun : Nat) : List Int → Bool
  | [] => false
  | d :: rest =>
    if d - prev = 1 then
      if maxRun < run + 1 then true
      else scanRun d (run + 1) maxRun rest
    else scanRun d 1 maxRun rest

/-- models._has_consecutive_violation: sort the (duplicate-free) date set and
scan for a run of consecutive calendar days longer than `maxRun`. -/
def _has_consecutive_violation (dates : Finset Int) (maxRun : Nat) : Bool :=
  match dates.sort (· ≤ ·) with
  | [] => false
  | d :: rest => scanRun d 1 maxRun rest

/-- The overlap query of models.validate_reservation. It joins `users`, so a
conflicting row whose user is missing is not visible to this check; scoped to
the vehicle when `vehicle_id` is truthy, otherwise across all reservations. -/
def find_overlapping_reservation (st : ClubState) (vehicle_id : Option Nat)
    (start_dt end_dt : Int) : Option Reservation :=
  if vtruthy vehicle_id then
    st.reservations.find? (fun r =>
      r.vehicleId = vehicle_id ∧ countedStatus r.status = true ∧
        (get_user_by_id st r.userId).isSome = true ∧
        overlaps_window r.startTime r.endTime start_dt end_dt = true)
  else
    st.reservations.find? (fun r =>
      countedStatus r.status = true ∧ (get_user_by_id st r.userId).isSome = true ∧
        overlaps_window r.startTime r.endTime start_dt end_dt = true)

/-- The blackout query of models.validate_reservation: vehicle-specific OR
club-wide (`vehicle_id = %s OR vehicle_id IS NULL`) when a vehicle is given,
otherwise every blackout row. -/
def find_overlapping_blackout (st : ClubState) (vehicle_id : Option Nat)
    (start_dt end_dt : Int) : Option Blackout :=
  if vtruthy vehicle_id then
    st.blackouts.find? (fun b =>
      (b.vehicleId = vehicle_id ∨ b.vehicleId = none) ∧
        overlaps_window b.startTime b.endTime start_dt end_dt = true)
  else
    st.blackouts.find? (fun b =>
      overlaps_window b.startTime b.endTime start_dt end_dt = true)

/-- Python `datetime.date()` on a minute-counted timestamp: floor-divide by
the 1440 minutes of a day. -/
def dateOf (t : Int) : Int := t.fdiv 1440

/-- Rendering of the Python f-string `{hours:.1f}` on a positive
minute-counted duration. The decimal digit is floored rather than
float-rounded; the surrounding message text is verbatim. -/
def fmtHours1 (mins : Int) : String :=
  toString (mins / 60) ++ "." ++ toString ((mins / 6) % 10)

/-- models.validate_reservation: all business rules for a new reservation, in
source order. Returns `some errorMessage` on the first failed rule, `none`
when valid. `now` is `now_ct()` in minutes, `today` is `date.today()` in
days (both impure in the source, passed explicitly here). -/
def validate_reservation (st : ClubState) (now : Int) (today : Int) (userId : Nat)
    (start_dt end_dt : Int) (vehicle_id : Option Nat) (vehicle_noun : String) :
    Option String :=
  if end_dt ≤ start_dt then
    some "End time must be after start time."
  else if ¬ start_dt.fmod 30 = 0 then
    some "Start time must be on a 30-minute interval (e.g. 9:00, 9:30, 10:00)."
  else if ¬ end_dt.fmod 30 = 0 then
    some "End time must be on a 30-minute interval (e.g. 9:00, 9:30, 10:00)."
  else if end_dt - start_dt < 120 then
    some ("Minimum reservation length is 2 hours (you selected "
      ++ fmtHours1 (end_dt - start_dt) ++ "h).")
  else if 360 < end_dt - start_dt then
    some ("Maximum reservation length is 6 hours (you selected "
      ++ fmtHours1 (end_dt - start_dt) ++ "h).")
  else if start_dt < now then
    some "Start time cannot be in the past."
  else if today + 60 < dateOf start_dt then
    some "Reservations cannot be made more than 60 days in advance."
  else if ¬ dateOf start_dt = dateOf end_dt then
    some "Reservations must start and end on the same calendar day."
  else
    match find_overlapping_reservation st vehicle_id start_dt end_dt with
    | some r =>
      some ("That time overlaps with "
        ++ (match get_user_by_id st r.userId with
            | some u => u.displayName
            | none => "") ++ "\x27s reservation.")
    | none =>
      match find_overlapping_blackout st vehicle_id start_dt end_dt with
      | some b =>
        some ("The " ++ vehicle_noun ++ " is unavailable during that time: "
          ++ b.reason ++ ".")
      | none =>
        let limits := get_user_limits st userId
        if limits.2 ≤ get_pending_count st now userId then
          some ("You already have " ++ toString limits.2
            ++ " upcoming reservations — the maximum allowed.")
        else
          let existingDates :=
            insert (dateOf start_dt) (get_user_future_dates st now userId)
          if _has_consecutive_violation existingDates limits.1 then
            some ("This reservation would exceed your " ++ toString limits.1
              ++ "-consecutive-day limit.")
          else
            none

/-- The authoritative overlap re-check that models.make_reservation performs
inside the locked transaction. No user join (`SELECT id FROM reservations`),
scoped to the vehicle when `vehicle_id` is truthy. It looks only at the
`reservations` table — blackouts and member limits are not re-checked. -/
def reservation_overlap_recheck (st : ClubState) (vehicle_id : Option Nat)
    (start_dt end_dt : Int) : Bool :=
  if vtruthy vehicle_id then
    st.reservations.any (fun r =>
      r.vehicleId = vehicle_id ∧ countedStatus r.status = true ∧
        overlaps_window r.startTime r.endTime start_dt end_dt = true)
  else
    st.reservations.any (fun r =>
      countedStatus r.status = true ∧
        overlaps_window r.startTime r.endTime start_dt end_dt = true)

/-- Python `(notes or "").strip() or None`. -/
def normalizeNotes (notes : Option String) : Option String :=
  let s := (notes.getD "").trim
  if s = "" then none else some s

/-- models.make_reservation: under the table lock, re-check overlap and
insert; returns `none` on conflict (caller treats as error), otherwise the
new row id and the updated state. -/
def make_reservation (st : ClubState) (userId : Nat) (start_dt end_dt : Int)
    (notes : Option String) (status : RStatus) (vehicle_id : Option Nat) :
    Option (Nat × ClubState) :=
  if reservation_overlap_recheck st vehicle_id start_dt end_dt then
    none
  else
    let row : Reservation :=
      { id := st.nextId, userId := userId, vehicleId := vehicle_id,
        date := dateOf start_dt, startTime := start_dt, endTime := end_dt,
        notes := normalizeNotes notes, status := status, cancelledAt := none }
    some (st.nextId,
      { st with reservations := st.reservations ++ [row], nextId := st.nextId + 1 })

/-- models.get_reservation_by_id: `SELECT r.*, u.full_name ... JOIN users` —
the inner join hides a reservation whose user row is missing. -/
def get_reservation_by_id (st : ClubState) (resId : Nat) : Option Reservation :=
  st.reservations.find? (fun r =>
    r.id = resId ∧ (get_user_by_id st r.userId).isSome = true)

/-- models.cancel_reservation: look up the reservation, check authorization
(admins may cancel anything), then unconditionally set status to `cancelled`
and `cancelled_at = NOW()`. Returns the success flag and the new state. -/
def cancel_reservation (st : ClubState) (resId : Nat) (userId : Nat)
    (isAdmin : Bool) (now : Int) : Bool × ClubState :=
  match get_reservation_by_id st resId with
  | none => (false, st)
  | some r =>
    if ¬ isAdmin ∧ r.userId ≠ userId then (false, st)
    else
      (true,
        { st with reservations := st.reservations.map (fun x =>
            if x.id = resId then
              { x with status := RStatus.cancelled, cancelledAt := some now }
            else x) })

/-- models.approve_reservation:
`UPDATE ... SET status='active' WHERE id = %s AND status='pending_approval'`.
`db.execute(..., fetch=False)` returns `None`, so the function reports
nothing about whether a row matched. -/
def approve_reservation (st : ClubState) (resId : Nat) : ClubState :=
  { st with reservations := st.reservations.map (fun r =>
      if r.id = resId ∧ r.status = RStatus.pending_approval then
        { r with status := RStatus.active }
      else r) }

/-- models.deny_reservation:
`UPDATE ... SET status='cancelled', cancelled_at=NOW() WHERE id = %s AND
status='pending_approval'`. Also reports nothing. -/
def deny_reservation (st : ClubState) (resId : Nat) (now : Int) : ClubState :=
  { st with reservations := st.reservations.map (fun r =>
      if r.id = resId ∧ r.status = RStatus.pending_approval then
        { r with status := RStatus.cancelled, cancelledAt := some now }
      else r) }

/-- models.get_waitlist_for_date: joins `users`, so entries whose user row is
missing are dropped; entries kept in ORDER BY created_at (list order). -/
def get_waitlist_for_date (st : ClubState) (d : Int) : List WaitlistEntry :=
  st.waitlist.filter (fun w =>
    w.desiredDate = d ∧ (get_user_by_id st w.userId).isSome = true)

/-- The loop of models.notify_and_clear_waitlist: for each loaded entry, send
a notification when the user exists, then `UPDATE waitlist SET notified=TRUE
WHERE id=%s`. Emitted notifications are collected as (userId, date) pairs. -/
def nacw_loop (d : Int) : List WaitlistEntry → ClubState →
    List (Nat × Int) × ClubState
  | [], st => ([], st)
  | en :: rest, st =>
    let sentHere : List (Nat × Int) :=
      match get_user_by_id st en.userId with
      | some _ => [(en.userId, d)]
      | none => []
    let st' : ClubState :=
      { st with waitlist := st.waitlist.map (fun w =>
          if w.id = en.id then { w with notified := true } else w) }
    let res := nacw_loop d rest st'
    (sentHere ++ res.1, res.2)

/-- models.notify_and_clear_waitlist: called after a cancellation. Loads the
entries for the date (all of them — there is no `notified = FALSE` filter in
the query) and runs the notify-and-mark loop. -/
def notify_and_clear_waitlist (st : ClubState) (d : Int) :
    List (Nat × Int) × ClubState :=
  nacw_loop d (get_waitlist_for_date st d) st

/-- models.get_all_vehicles: `SELECT * FROM vehicles WHERE is_active = TRUE`. -/
def get_all_vehicles (st : ClubState) : List Vehicle :=
  st.vehicles.filter (fun v => v.isActive)

/-- The loop of the spec-modelled multi-vehicle booking: insert one
reservation per vehicle, each preceded by the authoritative per-vehicle
overlap re-check of `make_reservation`; any conflict aborts the whole
transaction (`none`, no state change survives the rollback). -/
def mrm_go (userId : Nat) (start_dt end_dt : Int) (notes : Option String)
    (status : RStatus) : List Nat → ClubState → Option (List Nat × ClubState)
  | [], st => some ([], st)
  | vid :: rest, st =>
    if reservation_overlap_recheck st (some vid) start_dt end_dt then none
    else
      let row : Reservation :=
        { id := st.nextId, userId := userId, vehicleId := some vid,
          date := dateOf start_dt, startTime := start_dt, endTime := end_dt,
          notes := normalizeNotes notes, status := status, cancelledAt := none }
      let st' : ClubState :=
        { st with reservations := st.reservations ++ [row], nextId := st.nextId + 1 }
      match mrm_go userId start_dt end_dt notes status rest st' with
      | none => none
      | some (ids, st'') => some (st.nextId :: ids, st'')

/-- Modelled from the spec: `make_reservation_multi` is invoked by the booking
route in src/app.py but its definition is not among the sources. Per spec
§4.4/§5, a multi-vehicle booking performs all per-vehicle inserts inside one
locked transaction, re-running the authoritative overlap check immediately
before each insert; if any check finds a conflict the whole transaction
aborts and a conflict signal (`None`) distinct from a validation-error string
is returned, so the booking is all-or-nothing across vehicles. On success it
returns the inserted row ids (the route reads `result["id"]` per row). -/
def make_reservation_multi (st : ClubState) (userId : Nat)
    (vehicleIds : List Nat) (start_dt end_dt : Int) (notes : Option String)
    (status : RStatus) : Option (List Nat × ClubState) :=
  mrm_go userId start_dt end_dt notes status vehicleIds st

/-- Outcome of a POST to the booking route (src/app.py reserve_detail):
which flash/branch the request takes. `conflict` is the branch taken when
`make_reservation_multi` returns `None` ("A time slot conflict was
detected..."), distinct from the per-vehicle `validationErrors` branch. -/
inductive BookOutcome where
  | invalidSelection
  | validationErrors (es : List String)
  | conflict
  | booked (ids : List Nat)
deriving DecidableEq, Repr

/-- The decision core of the POST branch of app.reserve_detail: validate each
selected vehicle independently, aggregate `"{vname}: {err}"` messages, and
only when no vehicle fails call `make_reservation_multi`; its `None` result
is reported as a conflict with no state change. `approvalRequired` stands for
`settings.get("approval_required", "false").lower() == "true"`. -/
def reserve_detail_post (st : ClubState) (now today : Int) (effId : Nat)
    (selectedIds : List Nat) (start_dt end_dt : Int) (notes : Option String)
    (approvalRequired : Bool) (vnoun : String) : BookOutcome × ClubState :=
  let vehicles := get_all_vehicles st
  if selectedIds = [] then (BookOutcome.invalidSelection, st)
  else if ¬ selectedIds.all (fun vid => vehicles.any (fun v => v.id = vid)) then
    (BookOutcome.invalidSelection, st)
  else
    let errors := selectedIds.filterMap (fun vid =>
      (validate_reservation st now today effId start_dt end_dt (some vid) vnoun).map
        (fun err =>
          (match vehicles.find? (fun v => v.id = vid) with
           | some v => v.name
           | none => "Vehicle " ++ toString vid) ++ ": " ++ err))
    if ¬ errors = [] then (BookOutcome.validationErrors errors, st)
    else
      let statusAfter :=
        if approvalRequired then RStatus.pending_approval else RStatus.active
      match make_reservation_multi st effId selectedIds start_dt end_dt notes
          statusAfter with
      | none => (BookOutcome.conflict, st)
      | some (ids, st') => (BookOutcome.booked ids, st')

/-- Observable outcome of the cancellation route (src/app.py, route
`/cancel/<res_id>`): flash message and category, owners emailed with
`notify_reservation_cancelled`, waitlist notifications emitted, final state.
The `strftime("%B %d, %Y")` date rendering is abstracted to `toString`. -/
structure CancelOutcome where
  flash : String
  success : Bool
  emailed : List Nat
  waitlistNotified : List (Nat × Int)
  state : ClubState
deriving DecidableEq, Repr

/-- The cancellation route of src/app.py (named `cancel_reservation` there as
well; renamed here to avoid clashing with the models-layer function): look up
the reservation, call models.cancel_reservation with the caller's effective
id, and on success flash, email, and run the waitlist handler for the
reservation's date. -/
def app_cancel_reservation (st : ClubState) (now : Int) (resId : Nat)
    (callerId callerEffId : Nat) (callerIsAdmin : Bool) : CancelOutcome :=
  let res := get_reservation_by_id st resId
  let c := cancel_reservation st resId callerEffId callerIsAdmin now
  match res with
  | some r =>
    if c.1 then
      let emailed : List Nat :=
        if callerIsAdmin ∧ r.userId ≠ callerId then
          match get_user_by_id st r.userId with
          | some _ => [r.userId]
          | none => []
        else if ¬ callerIsAdmin then [callerId]
        else []
      let wl := notify_and_clear_waitlist c.2 r.date
      ⟨"Reservation for " ++ toString r.date ++ " cancelled.", true,
        emailed, wl.1, wl.2⟩
    else ⟨"Could not cancel that reservation.", false, [], [], c.2⟩
  | none => ⟨"Could not cancel that reservation.", false, [], [], c.2⟩

/-- The admin approval route (src/app.py admin_approve): calls
models.approve_reservation and flashes "Reservation approved."
unconditionally — the flash does not depend on whether a row transitioned. -/
def admin_approve (st : ClubState) (resId : Nat) : String × ClubState :=
  ("Reservation approved.", approve_reservation st resId)

/-- The admin denial route (src/app.py admin_deny): look up the reservation,
call models.deny_reservation, flash "Reservation denied." unconditionally,
and email the owner when the reservation row (and its owner) exist. -/
def admin_deny (st : ClubState) (resId : Nat) (now : Int) :
    String × List Nat × ClubState :=
  let res := get_reservation_by_id st resId
  let st' := deny_reservation st resId now
  let emailed : List Nat :=
    match res with
    | some r =>
      match get_user_by_id st r.userId with
      | some _ => [r.userId]
      | none => []
    | none => []
  ("Reservation denied.", emailed, st')

/-- A row of the master database's `clubs` table (src/master_db.py), also the
shape of the synthetic club dict built in single-club mode. -/
structure Club where
  id : Nat
  short_name : String
  name : String
  db_name : Option String
  db_user : Option String
  vehicle_type : String
  is_active : Bool
deriving DecidableEq, Repr

/-- Environment of the tenant resolver (src/club_resolver.py): the master
`clubs` registry, whether MASTER_DATABASE_URL is configured, the
CLUB_SHORT_NAME / CLUB_NAME / VEHICLE_TYPE environment variables, and the
in-process `_club_cache` (an assoc list keyed by short name). -/
structure ResolverEnv where
  masterClubs : List Club
  masterConfigured : Bool
  envClubShortName : Option String
  envClubName : Option String
  envVehicleType : Option String
  cache : List (String × Club)
deriving DecidableEq, Repr

/-- master_db.get_club_by_short_name:
`SELECT * FROM clubs WHERE short_name = %s AND is_active = TRUE` — an
inactive club is indistinguishable from a missing one. -/
def get_club_by_short_name (clubs : List Club) (shortName : String) :
    Option Club :=
  clubs.find? (fun c => c.short_name = shortName ∧ c.is_active = true)

/-- Split a character list on a separator character, Python `str.split(sep)`
for a one-character separator: `"".split` gives `[""]`, empty fields are
kept. (Implemented on `List Char` so that concrete hosts evaluate by
kernel reduction.) -/
def splitOnChar (sep : Char) : List Char → List (List Char)
  | [] => [[]]
  | c :: rest =>
    match splitOnChar sep rest with
    | [] => [[c]]
    | g :: gs => if c = sep then [] :: g :: gs else (c :: g) :: gs

/-- club_resolver._resolve_short_name: strip the port
(`host.split(":")[0]`), lowercase, take the first dot-separated label if
there are at least two, rejecting the reserved labels. -/
def _resolve_short_name (host : String) : Option String :=
  let host_only := ((splitOnChar ':' host.toList).headD []).map Char.toLower
  let parts := splitOnChar '.' host_only
  if 2 ≤ parts.length then
    let candidate := String.mk (parts.headD [])
    if candidate = "www" ∨ candidate = "api" ∨ candidate = "superadmin" ∨
        candidate = "admin" ∨ candidate = "mail" then none
    else some candidate
  else none

/-- Python dict store `_club_cache[short] = club`. -/
def cache_store (cache : List (String × Club)) (shortName : String)
    (club : Club) : List (String × Club) :=
  (shortName, club) :: cache.filter (fun p => ¬ p.1 = shortName)

/-- Python dict lookup `_club_cache.get(short)`. -/
def cache_get (cache : List (String × Club)) (shortName : String) :
    Option Club :=
  (cache.find? (fun p => p.1 = shortName)).map (fun p => p.2)

/-- club_resolver._load_club: cache hit wins; with no master database
configured a synthetic single-club dict is built for ANY short name; else the
master registry is queried (active clubs only) and a hit is cached. Returns
the club (or `none`) together with the possibly-updated cache. -/
def _load_club (env : ResolverEnv) (shortName : String) :
    Option Club × List (String × Club) :=
  match cache_get env.cache shortName with
  | some c => (some c, env.cache)
  | none =>
    if env.masterConfigured = false then
      let club : Club :=
        { id := 1, short_name := shortName,
          name := env.envClubName.getD "Bentley Boat Club",
          db_name := none, db_user := none,
          vehicle_type := env.envVehicleType.getD "boat", is_active := true }
      (some club, cache_store env.cache shortName club)
    else
      match get_club_by_short_name env.masterClubs shortName with
      | some c => (some c, cache_store env.cache shortName c)
      | none => (none, env.cache)

/-- Result of the before_request hook installed by club_resolver.init_app:
either the super-admin bypass, an abort(404), or a request served with the
given club as tenant context (`g.club`, `g.club_id`, ...). -/
inductive ResolveOutcome where
  | bypass
  | notFound
  | served (c : Club)
deriving DecidableEq, Repr

/-- The short-name resolution steps of the hook: subdomain first, then the
CLUB_SHORT_NAME environment variable; Python truthiness makes the empty
string fall through like `None` (`if not short_name:`). Returns `""` when
nothing resolved. -/
def resolvedShort (env : ResolverEnv) (host : String) : String :=
  let s1 := (_resolve_short_name host).getD ""
  if s1 = "" then (env.envClubShortName.getD "") else s1

/-- club_resolver.init_app's before_request hook `resolve_club`: bypass for
`/superadmin` paths; abort(404) when no short name resolves or `_load_club`
yields nothing; otherwise establish the tenant context. Returns the outcome
and the updated cache. -/
def resolve_club (env : ResolverEnv) (host path : String) :
    ResolveOutcome × List (String × Club) :=
  if path.startsWith "/superadmin" then (ResolveOutcome.bypass, env.cache)
  else
    let s := resolvedShort env host
    if s = "" then (ResolveOutcome.notFound, env.cache)
    else
      match _load_club env s with
      | (none, cache') => (ResolveOutcome.notFound, cache')
      | (some c, cache') => (ResolveOutcome.served c, cache')

/-- A concrete state for the C3 witness: one active reservation on vehicle 1
occupying `[480, 600)`, owned by an existing user. -/
def c3state : ClubState :=
  { users := [⟨7, "The Hasting family", none, none⟩],
    reservations := [⟨1, 7, some 1, 0, 480, 600, none, RStatus.active, none⟩],
    blackouts := [], waitlist := [], vehicles := [], nextId := 2 }

/-- A concrete state for the C9 witness: a club-wide blackout covering
`[0, 100000)` and no reservations at all. -/
def c9state : ClubState :=
  { users := [], reservations := [],
    blackouts := [⟨1, none, 0, 100000, "annual maintenance"⟩],
    waitlist := [], vehicles := [], nextId := 1 }

/-- A concrete state for C7: reservation 1 is already `active`
(already-resolved), reservation 2 is `pending_approval`. -/
def c7state : ClubState :=
  { users := [⟨7, "The Hasting family", none, none⟩],
    reservations :=
      [⟨1, 7, none, 0, 600, 720, none, RStatus.active, none⟩,
       ⟨2, 7, none, 1, 600, 720, none, RStatus.pending_approval, none⟩],
    blackouts := [], waitlist := [], vehicles := [], nextId := 3 }

/-- Environment for the C8 counterexample: single-club mode (no master
database configured), empty registry and cache. -/
def c8env : ResolverEnv :=
  { masterClubs := [], masterConfigured := false, envClubShortName := none,
    envClubName := none, envVehicleType := none, cache := [] }

/-- Environment for the C8 witness: a master registry containing only an
INACTIVE club named `bentley`. -/
def c8wenv : ResolverEnv :=
  { masterClubs := [⟨2, "bentley", "Bentley Boat Club", some "club_bentley",
      some "club_bentley_user", "boat", false⟩],
    masterConfigured := true, envClubShortName := none, envClubName := none,
    envVehicleType := none, cache := [] }

/-- A concrete state for C6: user 8 has a waitlist entry for date 5 whose
notified flag is ALREADY true. -/
def c6state : ClubState :=
  { users := [⟨8, "The Baker family", none, none⟩],
    reservations := [], blackouts := [],
    waitlist := [⟨1, 8, 5, true⟩], vehicles := [], nextId := 1 }

/-- The state produced by the UPDATE of models.cancel_reservation:
`SET status='cancelled', cancelled_at=NOW() WHERE id = %s`. -/
def cancelledState (st : ClubState) (rid : Nat) (now : Int) : ClubState :=
  { st with reservations := st.reservations.map (fun x =>
      if x.id = rid then
        { x with status := RStatus.cancelled, cancelledAt := some now }
      else x) }

/-- A concrete state for C5: reservation 1 (owner 7) is already cancelled
with timestamp 100, and user 8 waits (already notified) for the same date. -/
def c5state : ClubState :=
  { users := [⟨7, "The Hasting family", none, none⟩,
      ⟨8, "The Baker family", none, none⟩],
    reservations :=
      [⟨1, 7, none, 5, 7680, 7800, none, RStatus.cancelled, some 100⟩],
    blackouts := [], waitlist := [⟨1, 8, 5, true⟩], vehicles := [],
    nextId := 2 }

/-- A concrete state for the C2 witness, validation side: two active
vehicles A and B, with a blackout on vehicle 2 (B) overlapping the window
`[600, 720)`. -/
def c2state : ClubState :=
  { users := [⟨7, "The Hasting family", none, none⟩],
    reservations := [],
    blackouts := [⟨1, some 2, 600, 720, "engine service"⟩],
    waitlist := [],
    vehicles := [⟨1, "A", true⟩, ⟨2, "B", true⟩], nextId := 1 }

/-- A concrete state for the C2 witness, commit side: vehicle 1 already has
an active reservation on the requested window, so the locked re-check finds
a conflict. -/
def c2cstate : ClubState :=
  { users := [⟨9, "The Lee family", none, none⟩],
    reservations := [⟨1, 9, some 1, 0, 600, 720, none, RStatus.active, none⟩],
    blackouts := [], waitlist := [],
    vehicles := [⟨1, "A", true⟩, ⟨2, "B", true⟩], nextId := 2 }

/-- The state produced by the INSERT of models.make_reservation. -/
def insertedState (st : ClubState) (u : Nat) (s e : Int)
    (notes : Option String) (stat : RStatus) (v : Option Nat) : ClubState :=
  { st with
    reservations := st.reservations ++
      [{ id := st.nextId, userId := u, vehicleId := v, date := dateOf s,
         startTime := s, endTime := e, notes := normalizeNotes notes,
         status := stat, cancelledAt := none }],
    nextId := st.nextId + 1 }

/-- Invariant I1, pairwise form: two distinct committed reservations for the
same vehicle with status in (active, pending_approval) never have
overlapping half-open `[start, end)` windows. -/
def okPair (r1 r2 : Reservation) : Prop :=
  r1.vehicleId = r2.vehicleId → countedStatus r1.status = true →
    countedStatus r2.status = true →
    ¬ (r1.startTime < r2.endTime ∧ r2.startTime < r1.endTime)

instance : DecidableRel okPair := fun a b => by unfold okPair; infer_instance

/-- Invariant I1 over a whole state. -/
def noOverlapInvariant (st : ClubState) : Prop :=
  st.reservations.Pairwise okPair

instance (st : ClubState) : Decidable (noOverlapInvariant st) := by
  unfold noOverlapInvariant
  exact List.instDecidablePairwise _

/-- One engine write operation: a booking attempt (validate_reservation is
read-only, so a validate-then-book sequence changes state exactly as the
book step does; a failed book leaves the state unchanged) or a
cancellation. -/
inductive Op where
  | book (userId : Nat) (start_dt end_dt : Int) (notes : Option String)
      (status : RStatus) (vehicleId : Option Nat)
  | cancel (resId userId : Nat) (isAdmin : Bool) (now : Int)

/-- Apply one operation to the state, as the source does: a conflicting
booking inserts nothing, a cancellation applies models.cancel_reservation. -/
def applyOp (st : ClubState) : Op → ClubState
  | Op.book u s e notes stat v =>
    match make_reservation st u s e notes stat v with
    | none => st
    | some (_, st') => st'
  | Op.cancel rid uid adm now => (cancel_reservation st rid uid adm now).2

/-- An empty initial state for the C1 witness. -/
def c1state : ClubState :=
  { users := [⟨7, "The Hasting family", none, none⟩,
      ⟨8, "The Baker family", none, none⟩],
    reservations := [], blackouts := [], waitlist := [], vehicles := [],
    nextId := 1 }

/-- A concrete operation sequence for the C1 witness: a booking, a
conflicting booking for the same vehicle and window (rejected by the locked
re-check), a cancellation, and a re-booking of the freed window. -/
def c1ops : List Op :=
  [Op.book 7 600 720 none RStatus.active (some 1),
   Op.book 8 600 720 none RStatus.active (some 1),
   Op.cancel 1 7 false 800,
   Op.book 8 600 720 none RStatus.active (some 1)]

/-- The largest value the run counter of `scanRun` attains immediately after
an increment (i.e. after processing an adjacent date); 0 when no increment
ever happens. `scanRun` returns true exactly when this exceeds `maxRun`. -/
def scanMax2 (prev : Int) (run : Nat) : List Int → Nat
  | [] => 0
  | d :: rest =>
    if d - prev = 1 then max (run + 1) (scanMax2 d (run + 1) rest)
    else scanMax2 d 1 rest

/-! Characterizations of the conflict queries. -/

theorem recheck_iff (st : ClubState) (v : Option Nat) (s e : Int) :
    reservation_overlap_recheck st v s e = true ↔
      ∃ r ∈ st.reservations, (vtruthy v = true → r.vehicleId = v) ∧
        countedStatus r.status = true ∧ r.startTime < e ∧ s < r.endTime := by
  unfold reservation_overlap_recheck
  by_cases hv : vtruthy v = true <;>
    simp [hv, List.any_eq_true, overlaps_window]

theorem find_overlapping_reservation_iff (st : ClubState) (v : Option Nat)
    (s e : Int) :
    (find_overlapping_reservation st v s e).isSome = true ↔
      ∃ r ∈ st.reservations, (vtruthy v = true → r.vehicleId = v) ∧
        countedStatus r.status = true ∧
        (get_user_by_id st r.userId).isSome = true ∧
        r.startTime < e ∧ s < r.endTime := by
  unfold find_overlapping_reservation
  by_cases hv : vtruthy v = true <;>
    simp [hv, List.find?_isSome, overlaps_window]

theorem find_overlapping_blackout_iff (st : ClubState) (v : Option Nat)
    (s e : Int) :
    (find_overlapping_blackout st v s e).isSome = true ↔
      ∃ b ∈ st.blackouts,
        (vtruthy v = true → (b.vehicleId = v ∨ b.vehicleId = none)) ∧
        b.startTime < e ∧ s < b.endTime := by
  unfold find_overlapping_blackout
  by_cases hv : vtruthy v = true <;>
    simp [hv, List.find?_isSome, overlaps_window]

/-- C3: the conflict check reports an overlap for a proposed window
`[start, end)` against an existing active/pending booking (or blackout) iff
`existing.start_time < end` and `existing.end_time > start`; intervals that
merely touch at an endpoint are never reported as conflicts. Covers all
three conflict queries of the source: the locked re-check in
make_reservation and the reservation and blackout checks in
validate_reservation. -/
theorem conflict_check_halfopen_iff (st : ClubState) (v : Option Nat)
    (s e : Int) :
    (reservation_overlap_recheck st v s e = true ↔
      ∃ r ∈ st.reservations, (vtruthy v = true → r.vehicleId = v) ∧
        countedStatus r.status = true ∧ r.startTime < e ∧ s < r.endTime) ∧
    ((find_overlapping_reservation st v s e).isSome = true ↔
      ∃ r ∈ st.reservations, (vtruthy v = true → r.vehicleId = v) ∧
        countedStatus r.status = true ∧
        (get_user_by_id st r.userId).isSome = true ∧
        r.startTime < e ∧ s < r.endTime) ∧
    ((find_overlapping_blackout st v s e).isSome = true ↔
      ∃ b ∈ st.blackouts,
        (vtruthy v = true → (b.vehicleId = v ∨ b.vehicleId = none)) ∧
        b.startTime < e ∧ s < b.endTime) ∧
    (∀ rowStart rowEnd : Int, rowEnd = s ∨ rowStart = e →
      overlaps_window rowStart rowEnd s e = false) ∧
    ((∀ r ∈ st.reservations, r.endTime = s ∨ r.startTime = e) →
      reservation_overlap_recheck st v s e = false) := by
  refine ⟨recheck_iff st v s e, find_overlapping_reservation_iff st v s e,
    find_overlapping_blackout_iff st v s e, ?_, ?_⟩
  · intro rowStart rowEnd h
    simp only [overlaps_window, decide_eq_false_iff_not]
    rcases h with h | h <;> omega
  · intro htouch
    rcases hrc : reservation_overlap_recheck st v s e with _ | _
    · rfl
    · exfalso
      rcases (recheck_iff st v s e).mp hrc with ⟨r, hr, _, _, h1, h2⟩
      rcases htouch r hr with h | h <;> omega

/-- C3 witness: a proposed window `[600, 720)` touching the existing
reservation `[480, 600)` only at the endpoint is not reported as a conflict
by the locked re-check. -/
theorem conflict_check_halfopen_iff_witness :
    (∀ r ∈ c3state.reservations, r.endTime = 600 ∨ r.startTime = 720) ∧
    reservation_overlap_recheck c3state (some 1) 600 720 = false :=
  ⟨by decide,
    (conflict_check_halfopen_iff c3state (some 1) 600 720).2.2.2.2 (by decide)⟩

/-- C9 (implicit): the authoritative re-check inside make_reservation looks
only at overlapping reservations, not at blackout periods (or member
limits): in a state with a blackout overlapping the requested window but no
overlapping active/pending reservation, make_reservation inserts the row and
returns its id instead of failing. -/
theorem make_reservation_ignores_blackouts (st : ClubState) (u : Nat)
    (s e : Int) (notes : Option String) (stat : RStatus) (v : Option Nat)
    (hno : reservation_overlap_recheck st v s e = false)
    (hb : (find_overlapping_blackout st v s e).isSome = true) :
    make_reservation st u s e notes stat v =
      some (st.nextId,
        { st with
          reservations := st.reservations ++
            [{ id := st.nextId, userId := u, vehicleId := v,
               date := dateOf s, startTime := s, endTime := e,
               notes := normalizeNotes notes, status := stat,
               cancelledAt := none }],
          nextId := st.nextId + 1 }) := by
  simp [make_reservation, hno]

/-- C9 witness: booking `[600, 720)` on vehicle 1 in `c9state` succeeds and
inserts despite the blackout that validate_reservation would have flagged. -/
theorem make_reservation_ignores_blackouts_witness :
    reservation_overlap_recheck c9state (some 1) 600 720 = false ∧
    (find_overlapping_blackout c9state (some 1) 600 720).isSome = true ∧
    (make_reservation c9state 7 600 720 none RStatus.active (some 1)).isSome
      = true :=
  ⟨by decide, by decide, by
    rw [make_reservation_ignores_blackouts c9state 7 600 720 none
      RStatus.active (some 1) (by decide) (by decide)]
    rfl⟩

/-- C10 (implicit): validate_reservation enforces a 60-day advance-booking
horizon. Whenever the start date is more than 60 days after the current
date, validation fails; and if every rule checked before the horizon rule
passes, the error is exactly the horizon message — regardless of the rest of
the state. -/
theorem validate_sixty_day_horizon (st : ClubState) (now today : Int)
    (u : Nat) (s e : Int) (v : Option Nat) (noun : String)
    (hhorizon : today + 60 < dateOf s) :
    (validate_reservation st now today u s e v noun).isSome = true ∧
    (s < e → s.fmod 30 = 0 → e.fmod 30 = 0 → 120 ≤ e - s → e - s ≤ 360 →
      now ≤ s →
      validate_reservation st now today u s e v noun =
        some "Reservations cannot be made more than 60 days in advance.") := by
  constructor
  · unfold validate_reservation
    split_ifs <;> simp_all
  · intro h1 h2 h3 h4 h5 h6
    unfold validate_reservation
    split_ifs <;> simp_all <;> omega

/-- C10 witness: with `now = 0` and `today = 0`, a grid-aligned 2-hour
request on day 70 is rejected with the horizon message. -/
theorem validate_sixty_day_horizon_witness :
    ((0 : Int) + 60 < dateOf 100800) ∧
    validate_reservation
        ⟨[], [], [], [], [], 1⟩ 0 0 7 100800 100920 (some 1) "boat" =
      some "Reservations cannot be made more than 60 days in advance." :=
  ⟨by decide,
    (validate_sixty_day_horizon ⟨[], [], [], [], [], 1⟩ 0 0 7 100800 100920
        (some 1) "boat" (by decide)).2
      (by decide) (by decide) (by decide) (by decide) (by decide) (by decide)⟩

/-- C7 (amended): approve transitions a reservation to `active` and deny to
`cancelled` only when it is currently `pending_approval`; any reservation in
another status is left unchanged. However the operation does NOT report
whether a row was actually transitioned: `db.execute(..., fetch=False)`
returns `None` and the admin route flashes "Reservation approved."
unconditionally, so approving an already-resolved reservation presents the
same observable outcome as a real approval. -/
theorem approve_deny_transition_pending_only (st : ClubState) (rid : Nat)
    (now : Int) :
    ((∀ r ∈ st.reservations,
        ¬ (r.id = rid ∧ r.status = RStatus.pending_approval)) →
      approve_reservation st rid = st ∧ deny_reservation st rid now = st) ∧
    (∀ r ∈ st.reservations, r.id = rid →
      r.status = RStatus.pending_approval →
      ({ r with status := RStatus.active }
          ∈ (approve_reservation st rid).reservations ∧
       { r with status := RStatus.cancelled, cancelledAt := some now }
          ∈ (deny_reservation st rid now).reservations)) ∧
    ((admin_approve st rid).1 = "Reservation approved.") ∧
    ((∀ r ∈ st.reservations,
        ¬ (r.id = rid ∧ r.status = RStatus.pending_approval)) →
      admin_approve st rid = ("Reservation approved.", st)) := by
  have happ : (∀ r ∈ st.reservations,
      ¬ (r.id = rid ∧ r.status = RStatus.pending_approval)) →
      approve_reservation st rid = st := by
    intro h
    unfold approve_reservation
    have hmap : st.reservations.map (fun r =>
        if r.id = rid ∧ r.status = RStatus.pending_approval then
          { r with status := RStatus.active }
        else r) = st.reservations := by
      conv_rhs => rw [← List.map_id st.reservations]
      apply List.map_congr_left
      intro r hr
      simp [h r hr]
    rw [hmap]
  refine ⟨fun h => ⟨happ h, ?_⟩, ?_, rfl, fun h => ?_⟩
  · unfold deny_reservation
    have hmap : st.reservations.map (fun r =>
        if r.id = rid ∧ r.status = RStatus.pending_approval then
          { r with status := RStatus.cancelled, cancelledAt := some now }
        else r) = st.reservations := by
      conv_rhs => rw [← List.map_id st.reservations]
      apply List.map_congr_left
      intro r hr
      simp [h r hr]
    rw [hmap]
  · intro r hr hid hstat
    constructor
    · unfold approve_reservation
      have := List.mem_map_of_mem (fun r =>
        if r.id = rid ∧ r.status = RStatus.pending_approval then
          { r with status := RStatus.active }
        else r) hr
      simpa [hid, hstat] using this
    · unfold deny_reservation
      have := List.mem_map_of_mem (fun r =>
        if r.id = rid ∧ r.status = RStatus.pending_approval then
          { r with status := RStatus.cancelled, cancelledAt := some now }
        else r) hr
      simpa [hid, hstat] using this
  · unfold admin_approve
    rw [happ h]

/-- C7 counterexample: approving the already-resolved reservation 1 produces
exactly the same flash as approving the genuinely pending reservation 2 and
transitions nothing — so the caller is NOT told whether a row was
transitioned, and the no-op approve appears to succeed. -/
theorem approve_reports_nothing_counterexample :
    (admin_approve c7state 1).1 = (admin_approve c7state 2).1 ∧
    (admin_approve c7state 1).2 = c7state ∧
    (admin_approve c7state 2).2 ≠ c7state := by
  refine ⟨rfl, by decide, by decide⟩

/-- C7 witness: applying the amended theorem to `c7state` and the resolved
reservation 1. -/
theorem approve_deny_transition_pending_only_witness :
    (∀ r ∈ c7state.reservations,
      ¬ (r.id = 1 ∧ r.status = RStatus.pending_approval)) ∧
    admin_approve c7state 1 = ("Reservation approved.", c7state) :=
  ⟨by decide,
    (approve_deny_transition_pending_only c7state 1 0).2.2.2 (by decide)⟩

/-- C8 (amended): when a master tenant registry is configured
(MASTER_DATABASE_URL set) and the resolved short identifier is not in the
in-process cache, a request whose identifier matches no ACTIVE club in the
registry aborts with 404 before any tenant context is established; since
`get_club_by_short_name` filters on `is_active = TRUE`, an inactive tenant
is treated exactly like an unknown one. (Without a master registry the
source builds a synthetic single-club tenant instead — see the
counterexample.) -/
theorem resolver_notfound_when_master_configured (env : ResolverEnv)
    (host path : String)
    (hm : env.masterConfigured = true)
    (hp : path.startsWith "/superadmin" = false)
    (hc : cache_get env.cache (resolvedShort env host) = none)
    (ha : get_club_by_short_name env.masterClubs (resolvedShort env host)
      = none) :
    (resolve_club env host path).1 = ResolveOutcome.notFound := by
  unfold resolve_club
  by_cases hs : resolvedShort env host = "" <;>
    simp [hp, hs, _load_club, hc, hm, ha]

/-- C8 counterexample: in single-club mode the host `bentley.clubreserve.com`
— whose short identifier matches no tenant at all — is served under a
synthesized tenant instead of failing with NotFound, refuting the claim as
stated. -/
theorem resolver_synthetic_tenant_counterexample :
    get_club_by_short_name c8env.masterClubs "bentley" = none ∧
    (resolve_club c8env "bentley.clubreserve.com" "/calendar").1 =
      ResolveOutcome.served
        ⟨1, "bentley", "Bentley Boat Club", none, none, "boat", true⟩ := by
  exact ⟨rfl, by decide⟩

/-- C8 witness: with the master registry configured, resolving a host whose
identifier matches only an inactive club yields NotFound. -/
theorem resolver_notfound_when_master_configured_witness :
    c8wenv.masterConfigured = true ∧
    ("/calendar".startsWith "/superadmin") = false ∧
    get_club_by_short_name c8wenv.masterClubs
      (resolvedShort c8wenv "bentley.clubreserve.com") = none ∧
    (resolve_club c8wenv "bentley.clubreserve.com" "/calendar").1 =
      ResolveOutcome.notFound :=
  ⟨rfl, by decide, by decide,
    resolver_notfound_when_master_configured c8wenv "bentley.clubreserve.com"
      "/calendar" rfl (by decide) (by decide) (by decide)⟩

/-! The waitlist notification loop: helper lemmas shared by C5 and C6. -/

theorem notify_update_comm (en : WaitlistEntry) (ids : List Nat)
    (w : WaitlistEntry) :
    (fun x => if ids.contains x.id then { x with notified := true } else x)
      (if w.id = en.id then { w with notified := true } else w) =
    (if (en.id :: ids).contains w.id then { w with notified := true }
     else w) := by
  by_cases hw : w.id = en.id <;> by_cases hc : ids.contains w.id <;>
    simp [hw, hc]

theorem nacw_loop_spec (d : Int) (ens : List WaitlistEntry) (st : ClubState) :
    (nacw_loop d ens st).1 = ens.filterMap (fun en =>
        (get_user_by_id st en.userId).map (fun _ => (en.userId, d))) ∧
    (nacw_loop d ens st).2 =
      { st with waitlist := st.waitlist.map (fun w =>
          if (ens.map (fun en => en.id)).contains w.id then
            { w with notified := true } else w) } := by
  induction ens generalizing st with
  | nil =>
    refine ⟨rfl, ?_⟩
    have hmap : st.waitlist.map (fun w =>
        if (([] : List WaitlistEntry).map (fun en => en.id)).contains w.id then
          { w with notified := true } else w) = st.waitlist := by
      conv_rhs => rw [← List.map_id st.waitlist]
      apply List.map_congr_left
      intro w _
      simp
    rw [hmap]
    rfl
  | cons en rest ih =>
    have ih' := ih { st with waitlist := st.waitlist.map (fun w =>
      if w.id = en.id then { w with notified := true } else w) }
    have h1 : (nacw_loop d rest { st with waitlist := st.waitlist.map (fun w =>
        if w.id = en.id then { w with notified := true } else w) }).1 =
        rest.filterMap (fun en =>
          (get_user_by_id st en.userId).map (fun _ => (en.userId, d))) := ih'.1
    have h2 : (nacw_loop d rest { st with waitlist := st.waitlist.map (fun w =>
        if w.id = en.id then { w with notified := true } else w) }).2 =
        { st with waitlist := ((st.waitlist.map (fun w =>
            if w.id = en.id then { w with notified := true } else w)).map
          (fun w => if (rest.map (fun en => en.id)).contains w.id then
            { w with notified := true } else w)) } := ih'.2
    constructor
    · show (match get_user_by_id st en.userId with
        | some _ => [(en.userId, d)]
        | none => []) ++ (nacw_loop d rest _).1 = _
      rw [h1]
      cases h : get_user_by_id st en.userId <;>
        simp [h, List.filterMap_cons]
    · show (nacw_loop d rest _).2 = _
      rw [h2]
      have hmaps : (st.waitlist.map (fun w =>
          if w.id = en.id then { w with notified := true } else w)).map
            (fun w => if (rest.map (fun en => en.id)).contains w.id then
              { w with notified := true } else w) =
          st.waitlist.map (fun w =>
            if ((en :: rest).map (fun en => en.id)).contains w.id then
              { w with notified := true } else w) := by
        rw [List.map_map]
        apply List.map_congr_left
        intro w _
        exact notify_update_comm en (rest.map (fun en => en.id)) w
      rw [hmaps]

/-- C6 (amended): after a cancellation for a date, the waitlist handler
loads ALL waitlist entries for that date whose user row exists — the query
has no `notified = FALSE` filter — emits exactly one notification per loaded
entry, and marks each loaded entry notified. In particular an entry whose
notified flag is already true receives a further notification, so across n
cancellations for a date each entry receives n notification attempts, not
one. -/
theorem waitlist_notifies_all_entries (st : ClubState) (d : Int) :
    (notify_and_clear_waitlist st d).1 =
      (get_waitlist_for_date st d).filterMap (fun en =>
        (get_user_by_id st en.userId).map (fun _ => (en.userId, d))) ∧
    (notify_and_clear_waitlist st d).2 =
      { st with waitlist := st.waitlist.map (fun w =>
          if ((get_waitlist_for_date st d).map (fun en => en.id)).contains w.id
          then { w with notified := true } else w) } ∧
    (∀ en ∈ get_waitlist_for_date st d, en.notified = true →
      (en.userId, d) ∈ (notify_and_clear_waitlist st d).1) := by
  have h := nacw_loop_spec d (get_waitlist_for_date st d) st
  refine ⟨h.1, h.2, ?_⟩
  intro en hen _
  show (en.userId, d) ∈ (nacw_loop d (get_waitlist_for_date st d) st).1
  rw [h.1]
  apply List.mem_filterMap.mpr
  refine ⟨en, hen, ?_⟩
  have hex : (get_user_by_id st en.userId).isSome = true := by
    have := List.of_mem_filter hen
    simp only [decide_eq_true_eq, Bool.and_eq_true] at this
    exact this.2
  rcases hu : get_user_by_id st en.userId with _ | u
  · rw [hu] at hex
    simp at hex
  · rfl

/-- C6 counterexample: running the cancellation waitlist handler for date 5
notifies the already-notified entry again, refuting the claim that an entry
whose notified flag is true receives no further notification. -/
theorem waitlist_renotifies_counterexample :
    (∀ en ∈ c6state.waitlist, en.notified = true) ∧
    (notify_and_clear_waitlist c6state 5).1 = [(8, 5)] := by
  exact ⟨by decide, by decide⟩

/-- C6 witness: applying the amended theorem to `c6state` shows the
already-notified entry for date 5 receives another notification attempt. -/
theorem waitlist_notifies_all_entries_witness :
    (⟨1, 8, 5, true⟩ : WaitlistEntry) ∈ get_waitlist_for_date c6state 5 ∧
    ((8 : Nat), (5 : Int)) ∈ (notify_and_clear_waitlist c6state 5).1 :=
  ⟨by decide,
    (waitlist_notifies_all_entries c6state 5).2.2 ⟨1, 8, 5, true⟩
      (by decide) (by decide)⟩

/-- C5 (amended): cancelling an already-cancelled reservation again, by the
same authorized caller, is NOT detected: models.cancel_reservation has no
status check, so the second cancellation succeeds with the ordinary success
outcome (no distinct "already cancelled" outcome exists in the code), the
status stays `cancelled` but the cancellation timestamp is OVERWRITTEN with
the new current time, and the route re-triggers the waitlist notification
for the reservation's date (one notification per loaded entry, again). -/
theorem cancel_again_succeeds_and_renotifies (st : ClubState) (now : Int)
    (rid : Nat) (caller : Nat) (r : Reservation)
    (hres : get_reservation_by_id st rid = some r)
    (hcanc : r.status = RStatus.cancelled)
    (hown : r.userId = caller) :
    (cancel_reservation st rid caller false now).1 = true ∧
    (app_cancel_reservation st now rid caller caller false).success = true ∧
    (app_cancel_reservation st now rid caller caller false).flash =
      "Reservation for " ++ toString r.date ++ " cancelled." ∧
    (∀ x ∈ (app_cancel_reservation st now rid caller caller
        false).state.reservations,
      x.id = rid → x.status = RStatus.cancelled ∧ x.cancelledAt = some now) ∧
    (app_cancel_reservation st now rid caller caller false).waitlistNotified =
      (get_waitlist_for_date st r.date).filterMap (fun en =>
        (get_user_by_id st en.userId).map (fun _ => (en.userId, r.date))) := by
  have hcancel : cancel_reservation st rid caller false now =
      (true, cancelledState st rid now) := by
    unfold cancel_reservation cancelledState
    rw [hres]
    simp [hown]
  have happ : app_cancel_reservation st now rid caller caller false =
      ⟨"Reservation for " ++ toString r.date ++ " cancelled.", true, [caller],
        (notify_and_clear_waitlist (cancelledState st rid now) r.date).1,
        (notify_and_clear_waitlist (cancelledState st rid now) r.date).2⟩ := by
    unfold app_cancel_reservation
    rw [hres, hcancel]
    simp
  have hspec := nacw_loop_spec r.date
    (get_waitlist_for_date (cancelledState st rid now) r.date)
    (cancelledState st rid now)
  refine ⟨by rw [hcancel], by rw [happ], by rw [happ], ?_, ?_⟩
  · intro x hx hid
    rw [happ] at hx
    have hresv : (notify_and_clear_waitlist (cancelledState st rid now)
        r.date).2.reservations = (cancelledState st rid now).reservations := by
      show (nacw_loop r.date _ _).2.reservations = _
      rw [hspec.2]
    rw [hresv] at hx
    rcases List.mem_map.mp hx with ⟨y, _, rfl⟩
    by_cases hy : y.id = rid <;> simp_all
  · rw [happ]
    show (nacw_loop r.date _ _).1 = _
    rw [hspec.1]
    rfl

/-- C5 counterexample: owner 7 cancels the already-cancelled reservation 1 a
second time at t = 200. The route reports ordinary success (no "already
cancelled" outcome), the cancellation timestamp changes from 100 to 200, and
the waitlist notification for date 5 fires again — refuting the idempotence
claim at this concrete input. -/
theorem cancel_idempotence_counterexample :
    (∀ x ∈ c5state.reservations, x.status = RStatus.cancelled ∧
      x.cancelledAt = some 100) ∧
    (app_cancel_reservation c5state 200 1 7 7 false).success = true ∧
    (app_cancel_reservation c5state 200 1 7 7 false).flash =
      "Reservation for 5 cancelled." ∧
    (∃ x ∈ (app_cancel_reservation c5state 200 1 7 7
        false).state.reservations, x.id = 1 ∧ x.cancelledAt = some 200) ∧
    (app_cancel_reservation c5state 200 1 7 7 false).waitlistNotified =
      [(8, 5)] := by
  refine ⟨by decide, by decide, by decide, by decide, by decide⟩

/-- C5 witness: applying the amended theorem at `c5state`. -/
theorem cancel_again_succeeds_and_renotifies_witness :
    get_reservation_by_id c5state 1 =
      some ⟨1, 7, none, 5, 7680, 7800, none, RStatus.cancelled, some 100⟩ ∧
    (app_cancel_reservation c5state 200 1 7 7 false).waitlistNotified =
      [(8, 5)] :=
  ⟨by decide,
    ((cancel_again_succeeds_and_renotifies c5state 200 1 7
        ⟨1, 7, none, 5, 7680, 7800, none, RStatus.cancelled, some 100⟩
        (by decide) (by decide) (by decide)).2.2.2.2).trans (by decide)⟩

/-! C2: helper lemmas for the spec-modelled multi-vehicle commit. -/

theorem recheck_insert_mono (st : ClubState) (row : Reservation) (m : Nat)
    (v : Option Nat) (s e : Int)
    (h : reservation_overlap_recheck st v s e = true) :
    reservation_overlap_recheck
      { st with reservations := st.reservations ++ [row], nextId := m }
      v s e = true := by
  rw [recheck_iff] at h ⊢
  rcases h with ⟨r, hr, hprops⟩
  exact ⟨r, by simp [hr], hprops⟩

theorem mrm_conflict_aborts (u : Nat) (s e : Int) (notes : Option String)
    (stat : RStatus) :
    ∀ (vids : List Nat) (st : ClubState),
      (∃ vid ∈ vids, reservation_overlap_recheck st (some vid) s e = true) →
      mrm_go u s e notes stat vids st = none := by
  intro vids
  induction vids with
  | nil =>
    intro st h
    rcases h with ⟨_, h, _⟩
    cases h
  | cons vid rest ih =>
    intro st h
    by_cases hv : reservation_overlap_recheck st (some vid) s e = true
    · simp [mrm_go, hv]
    · rcases h with ⟨w, hw, hrw⟩
      rcases List.mem_cons.mp hw with rfl | hw2
      · exact absurd hrw hv
      · simp only [mrm_go, hv, Bool.false_eq_true, if_false, ite_false]
        rw [ih _ ⟨w, hw2, recheck_insert_mono st _ _ (some w) s e hrw⟩]

/-- C2: (spec-modelled commit) when the authoritative per-vehicle overlap
re-check inside the locked transaction finds a conflict, the whole
multi-vehicle booking aborts with no reservation inserted for any requested
vehicle, and the booking route reports the conflict signal — a distinct
outcome from the per-vehicle validation-error outcome; conversely, when any
one requested vehicle fails validation (e.g. a blackout overlaps its
window), the route never calls the commit, so no reservation is created for
any requested vehicle. -/
theorem multi_vehicle_booking_all_or_nothing
    (st : ClubState) (now today : Int) (effId : Nat) (vids : List Nat)
    (s e : Int) (notes : Option String) (approvalRequired : Bool)
    (vnoun : String) :
    ((∃ vid ∈ vids, reservation_overlap_recheck st (some vid) s e = true) →
      ∀ stat, make_reservation_multi st effId vids s e notes stat = none) ∧
    (make_reservation_multi st effId vids s e notes
        (if approvalRequired then RStatus.pending_approval
         else RStatus.active) = none →
      ¬ vids = [] →
      vids.all (fun vid =>
        (get_all_vehicles st).any (fun v => v.id = vid)) = true →
      vids.filterMap (fun vid =>
        (validate_reservation st now today effId s e (some vid) vnoun).map
          (fun err =>
            (match (get_all_vehicles st).find? (fun v => v.id = vid) with
             | some v => v.name
             | none => "Vehicle " ++ toString vid) ++ ": " ++ err)) = [] →
      reserve_detail_post st now today effId vids s e notes approvalRequired
        vnoun = (BookOutcome.conflict, st)) ∧
    (∀ es : List String,
      BookOutcome.conflict ≠ BookOutcome.validationErrors es) ∧
    (∀ vid ∈ vids,
      (validate_reservation st now today effId s e (some vid) vnoun).isSome
        = true →
      (reserve_detail_post st now today effId vids s e notes approvalRequired
        vnoun).2 = st ∧
      ∀ ids, (reserve_detail_post st now today effId vids s e notes
        approvalRequired vnoun).1 ≠ BookOutcome.booked ids) := by
  refine ⟨fun h stat => mrm_conflict_aborts effId s e notes stat vids st h,
    ?_, fun es h => BookOutcome.noConfusion h, ?_⟩
  · intro hmrm hne hall herr
    simp only [reserve_detail_post]
    rw [if_neg hne, if_neg (by simp [hall]), if_neg (by simp [herr])]
    show (match make_reservation_multi st effId vids s e notes
        (if approvalRequired then RStatus.pending_approval
         else RStatus.active) with
      | none => (BookOutcome.conflict, st)
      | some (ids, st') => (BookOutcome.booked ids, st')) =
        (BookOutcome.conflict, st)
    rw [hmrm]
  · intro vid hvid hsome
    have herrne : ¬ vids.filterMap (fun vid =>
        (validate_reservation st now today effId s e (some vid) vnoun).map
          (fun err =>
            (match (get_all_vehicles st).find? (fun v => v.id = vid) with
             | some v => v.name
             | none => "Vehicle " ++ toString vid) ++ ": " ++ err)) = [] := by
      intro hempty
      rcases Option.isSome_iff_exists.mp hsome with ⟨err, herr⟩
      have hmem : ((match (get_all_vehicles st).find? (fun v => v.id = vid)
            with
           | some v => v.name
           | none => "Vehicle " ++ toString vid) ++ ": " ++ err) ∈
          vids.filterMap (fun vid =>
            (validate_reservation st now today effId s e (some vid)
              vnoun).map (fun err =>
                (match (get_all_vehicles st).find? (fun v => v.id = vid) with
                 | some v => v.name
                 | none => "Vehicle " ++ toString vid) ++ ": " ++ err)) := by
        apply List.mem_filterMap.mpr
        refine ⟨vid, hvid, ?_⟩
        rw [herr]
        rfl
      rw [hempty] at hmem
      cases hmem
    simp only [reserve_detail_post]
    split_ifs <;>
      exact ⟨rfl, fun ids h => BookOutcome.noConfusion h⟩

/-- C2 witness: (commit side) a conflict on one of the two requested
vehicles aborts the whole multi-vehicle booking; (validation side) with
vehicle 2 failing validation because of its blackout, the booking route
creates no reservation for either vehicle and does not report success. -/
theorem multi_vehicle_booking_all_or_nothing_witness :
    (∃ vid ∈ [1, 2],
      reservation_overlap_recheck c2cstate (some vid) 600 720 = true) ∧
    make_reservation_multi c2cstate 9 [1, 2] 600 720 none RStatus.active
      = none ∧
    (validate_reservation c2state 0 0 7 600 720 (some 2) "boat").isSome
      = true ∧
    (reserve_detail_post c2state 0 0 7 [1, 2] 600 720 none false "boat").2
      = c2state ∧
    ∀ ids, (reserve_detail_post c2state 0 0 7 [1, 2] 600 720 none false
      "boat").1 ≠ BookOutcome.booked ids :=
  ⟨by decide,
    (multi_vehicle_booking_all_or_nothing c2cstate 0 0 9 [1, 2] 600 720 none
      false "boat").1 (by decide) RStatus.active,
    by decide,
    ((multi_vehicle_booking_all_or_nothing c2state 0 0 7 [1, 2] 600 720 none
      false "boat").2.2.2 2 (by decide) (by decide)).1,
    ((multi_vehicle_booking_all_or_nothing c2state 0 0 7 [1, 2] 600 720 none
      false "boat").2.2.2 2 (by decide) (by decide)).2⟩

/-! C1: the no-double-booking invariant and its preservation. -/

theorem make_reservation_preserves_invariant (st : ClubState) (u : Nat)
    (s e : Int) (notes : Option String) (stat : RStatus) (v : Option Nat)
    (rid : Nat) (st' : ClubState)
    (hinv : noOverlapInvariant st)
    (hmk : make_reservation st u s e notes stat v = some (rid, st')) :
    noOverlapInvariant st' := by
  by_cases hrc : reservation_overlap_recheck st v s e = true
  · unfold make_reservation at hmk
    rw [if_pos hrc] at hmk
    cases hmk
  · have hrc' : reservation_overlap_recheck st v s e = false :=
      Bool.eq_false_iff.mpr hrc
    unfold make_reservation at hmk
    rw [if_neg (by rw [hrc']; simp)] at hmk
    have h : ((st.nextId, insertedState st u s e notes stat v) :
        Nat × ClubState) = (rid, st') := Option.some.inj hmk
    have hst' : st' = insertedState st u s e notes stat v :=
      (congrArg Prod.snd h).symm
    subst hst'
    show List.Pairwise okPair (st.reservations ++ [_])
    rw [List.pairwise_append]
    refine ⟨hinv, List.pairwise_singleton _ _, ?_⟩
    intro x hx y hy
    rcases List.mem_singleton.mp hy with rfl
    intro hveh hcx _
    intro hover
    have hnone : ¬ reservation_overlap_recheck st v s e = true := by
      rw [hrc']
      simp
    rw [recheck_iff] at hnone
    push_neg at hnone
    have hle := hnone x hx (fun _ => hveh) hcx hover.1
    exact absurd hover.2 (not_lt.mpr hle)

theorem cancel_preserves_invariant (st : ClubState) (rid uid : Nat)
    (adm : Bool) (now : Int) (hinv : noOverlapInvariant st) :
    noOverlapInvariant (cancel_reservation st rid uid adm now).2 := by
  unfold cancel_reservation
  cases h : get_reservation_by_id st rid with
  | none => exact hinv
  | some r =>
    show noOverlapInvariant
      (if ¬ adm = true ∧ r.userId ≠ uid then ((false, st) : Bool × ClubState)
       else (true, cancelledState st rid now)).2
    split_ifs with hauth
    · exact hinv
    · show List.Pairwise okPair (st.reservations.map _)
      rw [List.pairwise_map]
      apply List.Pairwise.imp ?_ hinv
      intro a b hab
      intro hveh hca hcb
      by_cases ha : a.id = rid
      · exfalso
        rw [if_pos ha] at hca
        simp [countedStatus] at hca
      · by_cases hb : b.id = rid
        · exfalso
          rw [if_pos hb] at hcb
          simp [countedStatus] at hcb
        · rw [if_neg ha] at hveh hca ⊢
          rw [if_neg hb] at hveh hcb ⊢
          exact hab hveh hca hcb

/-- The foldl induction behind C1. -/
theorem foldl_preserves_invariant (ops : List Op) :
    ∀ st : ClubState, noOverlapInvariant st →
      noOverlapInvariant (ops.foldl applyOp st) := by
  induction ops with
  | nil => exact fun st h => h
  | cons op rest ih =>
    intro st h
    rw [List.foldl_cons]
    apply ih
    cases op with
    | book u s e notes stat v =>
      show noOverlapInvariant
        (match make_reservation st u s e notes stat v with
          | none => st
          | some (_, st') => st')
      cases hmk : make_reservation st u s e notes stat v with
      | none => exact h
      | some p =>
        exact make_reservation_preserves_invariant st u s e notes stat v
          p.1 p.2 h (by rw [hmk])
    | cancel rid uid2 adm now =>
      exact cancel_preserves_invariant st rid uid2 adm now h

/-- C1: starting from any state satisfying the no-double-booking invariant,
any sequence of booking operations (each a validate_reservation followed by
make_reservation — validation is read-only, and make_reservation re-checks
overlap under the table lock before inserting) and cancellations preserves
the invariant: no two reservations with status in (active, pending_approval)
for the same vehicle have overlapping `[start, end)` windows. In particular
a successful make_reservation never introduces such an overlap. -/
theorem booking_cancellation_preserves_no_overlap (ops : List Op)
    (st : ClubState) (hinv : noOverlapInvariant st) :
    noOverlapInvariant (ops.foldl applyOp st) ∧
    (∀ (u : Nat) (s e : Int) (notes : Option String) (stat : RStatus)
      (v : Option Nat) (rid : Nat) (st' : ClubState),
      make_reservation st u s e notes stat v = some (rid, st') →
      noOverlapInvariant st') :=
  ⟨foldl_preserves_invariant ops st hinv,
    fun u s e notes stat v rid st' hmk =>
      make_reservation_preserves_invariant st u s e notes stat v rid st'
        hinv hmk⟩

/-- C1 witness: applying the preservation theorem to the concrete
sequence. -/
theorem booking_cancellation_preserves_no_overlap_witness :
    noOverlapInvariant c1state ∧
    noOverlapInvariant (c1ops.foldl applyOp c1state) :=
  ⟨by decide,
    (booking_cancellation_preserves_no_overlap c1ops c1state (by decide)).1⟩

/-! C4: correctness of the consecutive-day scan. -/

theorem scanRun_iff_scanMax2 (maxRun : Nat) :
    ∀ (l : List Int) (prev : Int) (run : Nat),
      scanRun prev run maxRun l = true ↔ maxRun < scanMax2 prev run l := by
  intro l
  induction l with
  | nil =>
    intro prev run
    simp [scanRun, scanMax2]
  | cons d rest ih =>
    intro prev run
    simp only [scanRun, scanMax2]
    by_cases h : d - prev = 1
    · rw [if_pos h, if_pos h]
      by_cases h2 : maxRun < run + 1
      · rw [if_pos h2]
        exact iff_of_true rfl (lt_max_iff.mpr (Or.inl h2))
      · rw [if_neg h2]
        rw [ih d (run + 1), lt_max_iff]
        constructor
        · exact Or.inr
        · rintro (hc | hc)
          · exact absurd hc h2
          · exact hc
    · rw [if_neg h, if_neg h]
      exact ih d 1

/-- Soundness of the scan: whatever value `scanMax2` reports, a consecutive
chain of that length (of at least two dates) lies inside the date set. -/
theorem scanMax2_chain (S : Finset Int) :
    ∀ (l : List Int) (prev : Int) (run : Nat),
      1 ≤ run →
      (∀ i : Nat, i < run → prev - (i : Int) ∈ S) →
      (∀ x ∈ l, x ∈ S) →
      scanMax2 prev run l = 0 ∨
        (2 ≤ scanMax2 prev run l ∧
          ∃ a : Int, ∀ i : Nat, i < scanMax2 prev run l →
            a + (i : Int) ∈ S) := by
  intro l
  induction l with
  | nil =>
    intro prev run _ _ _
    exact Or.inl rfl
  | cons d rest ih =>
    intro prev run hrun hchain hsub
    have hd : d ∈ S := hsub d (List.mem_cons_self d rest)
    have hsub2 : ∀ x ∈ rest, x ∈ S :=
      fun x hx => hsub x (List.mem_cons_of_mem d hx)
    by_cases h : d - prev = 1
    · have hchain2 : ∀ i : Nat, i < run + 1 → d - (i : Int) ∈ S := by
        intro i hi
        cases i with
        | zero => simpa using hd
        | succ j =>
          have hj := hchain j (Nat.lt_of_succ_lt_succ hi)
          have heq : prev - (j : Int) = d - ((j + 1 : Nat) : Int) := by
            push_cast
            omega
          rwa [heq] at hj
      have ihres := ih d (run + 1) (by omega) hchain2 hsub2
      simp only [scanMax2]
      rw [if_pos h]
      right
      constructor
      · exact le_max_iff.mpr (Or.inl (by omega))
      · rcases le_total (scanMax2 d (run + 1) rest) (run + 1) with hle | hge
        · rw [max_eq_left hle]
          refine ⟨d - (run : Int), ?_⟩
          intro i hi
          have hm := hchain2 (run - i) (by omega)
          have heq : d - ((run - i : Nat) : Int) =
              d - (run : Int) + (i : Int) := by
            have hile : i ≤ run := by omega
            push_cast [hile]
            omega
          rwa [heq] at hm
        · rw [max_eq_right hge]
          rcases ihres with h0 | ⟨_, a, ha⟩
          · omega
          · exact ⟨a, ha⟩
    · have hchain1 : ∀ i : Nat, i < 1 → d - (i : Int) ∈ S := by
        intro i hi
        have hi0 : i = 0 := by omega
        subst hi0
        simpa using hd
      have ihres := ih d 1 (le_refl 1) hchain1 hsub2
      simp only [scanMax2]
      rw [if_neg h]
      exact ihres

/-- Completeness of the scan: when the processed list is exactly the set of
dates above `prev` in sorted order and `run` is the exact length of the
consecutive chain ending at `prev`, every consecutive chain of at least two
dates whose last element lies beyond `prev` is counted by `scanMax2`. -/
theorem scanMax2_complete (S : Finset Int) :
    ∀ (l : List Int) (prev : Int) (run : Nat),
      List.Sorted (· < ·) (prev :: l) →
      (∀ x : Int, prev < x → (x ∈ S ↔ x ∈ l)) →
      (∀ i : Nat, i < run → prev - (i : Int) ∈ S) →
      prev - (run : Int) ∉ S →
      ∀ (a : Int) (k : Nat), 2 ≤ k →
        (∀ i : Nat, i < k → a + (i : Int) ∈ S) →
        prev < a + (k : Int) - 1 →
        k ≤ scanMax2 prev run l := by
  intro l
  induction l with
  | nil =>
    intro prev run _ h2 _ _ a k hk hchain hlast
    exfalso
    have hmem : a + ((k - 1 : Nat) : Int) ∈ S := hchain (k - 1) (by omega)
    have heq : a + ((k - 1 : Nat) : Int) = a + (k : Int) - 1 := by
      have h1k : 1 ≤ k := by omega
      push_cast [h1k]
      ring
    rw [heq] at hmem
    exact absurd ((h2 _ hlast).mp hmem) (List.not_mem_nil _)
  | cons d rest ih =>
    intro prev run hsort h2 h3 h4 a k hk hchain hlast
    have hpd : prev < d :=
      (List.sorted_cons.mp hsort).1 d (List.mem_cons_self d rest)
    have hsort2 : List.Sorted (· < ·) (d :: rest) :=
      (List.sorted_cons.mp hsort).2
    have hdrest : ∀ x ∈ rest, d < x := (List.sorted_cons.mp hsort2).1
    have hdS : d ∈ S := (h2 d hpd).mpr (List.mem_cons_self d rest)
    have h2d : ∀ x : Int, d < x → (x ∈ S ↔ x ∈ rest) := by
      intro x hx
      constructor
      · intro hxS
        rcases List.mem_cons.mp ((h2 x (lt_trans hpd hx)).mp hxS) with
          rfl | hr
        · exact absurd hx (lt_irrefl _)
        · exact hr
      · intro hr
        exact (h2 x (lt_trans hpd hx)).mpr (List.mem_cons_of_mem d hr)
    by_cases hadj : d - prev = 1
    · have hchain2 : ∀ i : Nat, i < run + 1 → d - (i : Int) ∈ S := by
        intro i hi
        cases i with
        | zero => simpa using hdS
        | succ j =>
          have hj := h3 j (Nat.lt_of_succ_lt_succ hi)
          have heq : prev - (j : Int) = d - ((j + 1 : Nat) : Int) := by
            push_cast
            omega
          rwa [heq] at hj
      have h42 : d - ((run + 1 : Nat) : Int) ∉ S := by
        have heq : d - ((run + 1 : Nat) : Int) = prev - (run : Int) := by
          push_cast
          omega
        rw [heq]
        exact h4
      simp only [scanMax2]
      rw [if_pos hadj]
      by_cases hend : d < a + (k : Int) - 1
      · exact le_max_of_le_right
          (ih d (run + 1) hsort2 h2d hchain2 h42 a k hk hchain hend)
      · push_neg at hend
        have hlastS : a + (k : Int) - 1 ∈ S := by
          have hmem := hchain (k - 1) (by omega)
          have heq : a + ((k - 1 : Nat) : Int) = a + (k : Int) - 1 := by
            have h1k : 1 ≤ k := by omega
            push_cast [h1k]
            ring
          rwa [heq] at hmem
        have heqd : a + (k : Int) - 1 = d := by
          rcases List.mem_cons.mp ((h2 _ hlast).mp hlastS) with heq | hr
          · exact heq
          · have := hdrest _ hr
            omega
        have hchain_end : ∀ j : Nat, j < k → d - (j : Int) ∈ S := by
          intro j hj
          have hm := hchain (k - 1 - j) (by omega)
          have heq : a + ((k - 1 - j : Nat) : Int) = d - (j : Int) := by
            have hjk : j ≤ k - 1 := by omega
            have h1k : 1 ≤ k := by omega
            push_cast [hjk, h1k]
            omega
          rwa [heq] at hm
        have hkle : k ≤ run + 1 := by
          by_contra hgt
          push_neg at hgt
          exact h42 (by
            have := hchain_end (run + 1) (by omega)
            push_cast at this ⊢
            exact this)
        exact le_max_of_le_left hkle
    · have hchain1 : ∀ i : Nat, i < 1 → d - (i : Int) ∈ S := by
        intro i hi
        have hi0 : i = 0 := by omega
        subst hi0
        simpa using hdS
      have h41 : d - ((1 : Nat) : Int) ∉ S := by
        intro hmem
        have hgt : prev < d - ((1 : Nat) : Int) := by
          push_cast
          omega
        rcases List.mem_cons.mp ((h2 _ hgt).mp hmem) with heq | hr
        · push_cast at heq
          omega
        · have := hdrest _ hr
          push_cast at this
          omega
      simp only [scanMax2]
      rw [if_neg hadj]
      by_cases hend : d < a + (k : Int) - 1
      · exact ih d 1 hsort2 h2d hchain1 h41 a k hk hchain hend
      · exfalso
        push_neg at hend
        have hlastS : a + (k : Int) - 1 ∈ S := by
          have hmem := hchain (k - 1) (by omega)
          have heq : a + ((k - 1 : Nat) : Int) = a + (k : Int) - 1 := by
            have h1k : 1 ≤ k := by omega
            push_cast [h1k]
            ring
          rwa [heq] at hmem
        have heqd : a + (k : Int) - 1 = d := by
          rcases List.mem_cons.mp ((h2 _ hlast).mp hlastS) with heq | hr
          · exact heq
          · have := hdrest _ hr
            omega
        have hd1 : d - ((1 : Nat) : Int) ∈ S := by
          have hm := hchain (k - 2) (by omega)
          have heq : a + ((k - 2 : Nat) : Int) = d - ((1 : Nat) : Int) := by
            have h2k : 2 ≤ k := hk
            push_cast [h2k]
            omega
          rwa [heq] at hm
        exact h41 hd1

/-- The scan is equivalent to the existence of a run of at least two
consecutive calendar dates, of length exceeding `maxRun`, inside the set. -/
theorem hcv_iff (S : Finset Int) (maxRun : Nat) :
    _has_consecutive_violation S maxRun = true ↔
      ∃ (a : Int) (k : Nat), 2 ≤ k ∧ maxRun < k ∧
        ∀ i : Nat, i < k → a + (i : Int) ∈ S := by
  unfold _has_consecutive_violation
  cases hs : S.sort (· ≤ ·) with
  | nil =>
    simp only [Bool.false_eq_true, false_iff]
    rintro ⟨a, k, hk, _, hchain⟩
    have ha : a ∈ S := by simpa using hchain 0 (by omega)
    have hmem : a ∈ S.sort (· ≤ ·) := (Finset.mem_sort _).mpr ha
    rw [hs] at hmem
    cases hmem
  | cons h t =>
    have hsorted : List.Sorted (· < ·) (h :: t) := by
      have := Finset.sort_sorted_lt S
      rwa [hs] at this
    have hmemS : ∀ x ∈ h :: t, x ∈ S := by
      intro x hx
      have hx2 : x ∈ S.sort (· ≤ ·) := by
        rw [hs]
        exact hx
      exact (Finset.mem_sort _).mp hx2
    have hminS : ∀ x ∈ S, x ∈ h :: t := by
      intro x hx
      have hx2 : x ∈ S.sort (· ≤ ·) := (Finset.mem_sort _).mpr hx
      rwa [hs] at hx2
    have h2 : ∀ x : Int, h < x → (x ∈ S ↔ x ∈ t) := by
      intro x hx
      constructor
      · intro hxS
        rcases List.mem_cons.mp (hminS x hxS) with rfl | hr
        · exact absurd hx (lt_irrefl _)
        · exact hr
      · intro hr
        exact hmemS x (List.mem_cons_of_mem h hr)
    have hchain1 : ∀ i : Nat, i < 1 → h - (i : Int) ∈ S := by
      intro i hi
      have hi0 : i = 0 := by omega
      subst hi0
      simpa using hmemS h (List.mem_cons_self h t)
    have h4 : h - ((1 : Nat) : Int) ∉ S := by
      intro hmem
      rcases List.mem_cons.mp (hminS _ hmem) with heq | hr
      · push_cast at heq
        omega
      · have := (List.sorted_cons.mp hsorted).1 _ hr
        push_cast at this
        omega
    constructor
    · intro htrue
      rw [scanRun_iff_scanMax2] at htrue
      rcases scanMax2_chain S t h 1 (le_refl 1) hchain1
          (fun x hx => hmemS x (List.mem_cons_of_mem h hx)) with
        h0 | ⟨hge2, a, ha⟩
      · omega
      · exact ⟨a, scanMax2 h 1 t, hge2, htrue, ha⟩
    · rintro ⟨a, k, hk2, hkm, hchain⟩
      rw [scanRun_iff_scanMax2]
      have hlast : h < a + (k : Int) - 1 := by
        have haS : a ∈ S := by simpa using hchain 0 (by omega)
        rcases List.mem_cons.mp (hminS a haS) with rfl | hr
        · omega
        · have := (List.sorted_cons.mp hsorted).1 a hr
          omega
      have := scanMax2_complete S t h 1 hsorted h2 hchain1 h4 a k hk2
        hchain hlast
      omega

/-- C4: the consecutive-day check returns true iff the set of distinct
calendar dates contains a run of dates each exactly one calendar day apart
(here: at least two of them — the program always calls it with
`maxRun ≥ 1`, since NULL/0 per-member limits coerce to the default 3, and
for `maxRun ≥ 1` the restriction is immaterial, as the second conjunct
shows) whose length exceeds `maxRun`. The function consumes a set, so it is
order-independent and a date with several time slots counts once. The last
two conjuncts are the spec scenario with days numbered 1..5 for
2024-06-01..05 and maxConsecutiveDays = 3: dates {06-01, 06-02, 06-03,
06-04} are flagged, while {06-01, 06-02, 06-03, 06-05} are not. -/
theorem consecutive_violation_iff_long_run (dates : Finset Int)
    (maxRun : Nat) :
    (_has_consecutive_violation dates maxRun = true ↔
      ∃ (a : Int) (k : Nat), 2 ≤ k ∧ maxRun < k ∧
        ∀ i : Nat, i < k → a + (i : Int) ∈ dates) ∧
    (1 ≤ maxRun →
      (_has_consecutive_violation dates maxRun = true ↔
        ∃ (a : Int) (k : Nat), maxRun < k ∧
          ∀ i : Nat, i < k → a + (i : Int) ∈ dates)) ∧
    _has_consecutive_violation {1, 2, 3, 4} 3 = true ∧
    _has_consecutive_violation {1, 2, 3, 5} 3 = false := by
  refine ⟨hcv_iff dates maxRun, ?_, ?_, ?_⟩
  · intro hmr
    rw [hcv_iff]
    constructor
    · rintro ⟨a, k, _, hm, hc⟩
      exact ⟨a, k, hm, hc⟩
    · rintro ⟨a, k, hm, hc⟩
      exact ⟨a, k, by omega, hm, hc⟩
  · apply (hcv_iff _ _).mpr
    refine ⟨1, 4, by omega, by omega, ?_⟩
    intro i hi
    interval_cases i <;> norm_num
  · rw [Bool.eq_false_iff]
    intro htrue
    rcases (hcv_iff _ _).mp htrue with ⟨a, k, _, hk3, hc⟩
    have h0 : a + ((0 : Nat) : Int) ∈ ({1, 2, 3, 5} : Finset Int) :=
      hc 0 (by omega)
    have h1 : a + ((1 : Nat) : Int) ∈ ({1, 2, 3, 5} : Finset Int) :=
      hc 1 (by omega)
    have h2 : a + ((2 : Nat) : Int) ∈ ({1, 2, 3, 5} : Finset Int) :=
      hc 2 (by omega)
    have h3 : a + ((3 : Nat) : Int) ∈ ({1, 2, 3, 5} : Finset Int) :=
      hc 3 (by omega)
    simp only [Finset.mem_insert, Finset.mem_singleton] at h0 h1 h2 h3
    push_cast at h0 h1 h2 h3
    omega

/-- C4 witness: applying the theorem at the scenario set with
maxConsecutiveDays = 3 and producing the run 1,2,3,4 explicitly. -/
theorem consecutive_violation_iff_long_run_witness :
    (1 : Nat) ≤ 3 ∧
    _has_consecutive_violation {1, 2, 3, 4} 3 = true :=
  ⟨by omega,
    ((consecutive_violation_iff_long_run {1, 2, 3, 4} 3).2.1 (by omega)).mpr
      ⟨1, 4, by omega, by
        intro i hi
        interval_cases i <;> norm_num⟩⟩

end FleetNests
